import Mathlib

/-
Shallow embedding of `src/fetch.py` (a news-aggregation pipeline: time-window
admission, per-source fetch with failure isolation, publish-date resolution,
keyword filtering, identity-based deduplication, stable descending sort).

Modelling conventions:
* Python aware `datetime` values are `PyDateTime` records `(instant, tzoff)`:
  `instant` is the absolute UTC instant (an integer timeline, e.g. microseconds
  since the epoch); `tzoff` is the attached timezone offset.  Python compares
  aware datetimes by absolute instant and `astimezone` changes only the
  attached timezone, which is exactly what the model does.
* The `date` field of an emitted item is kept as a `PyDateTime` rather than the
  `isoformat()` string: every date the program stores is a UTC-normalised
  aware datetime (`tzinfo=timezone.utc`), and `isoformat` is strictly monotone
  on those, so comparisons and equalities transfer verbatim.
* External effects (HTTP, lxml parsing, dateutil, trafilatura, SHA-1) are
  fields of an `Env` record of pure functions; an `Except.error` result models
  a raised exception (including `raise_for_status`).
* Regular-expression patterns (always compiled with `re.I` in the program) are
  modelled as literal patterns: `re.search(p, t, re.I)` for a literal pattern
  degenerates to case-insensitive substring search, which `imatch` implements.
* `fetch_html_window_items` additionally returns the list of detail-page URLs
  it requested (`http_get` calls), in request order, as ghost instrumentation;
  the first component is exactly the list the Python function returns.
-/

/-- A Python aware `datetime`: absolute UTC instant plus attached tz offset.
Comparison of aware datetimes is comparison of instants. -/
structure PyDateTime where
  instant : Int
  tzoff : Int
deriving DecidableEq

/-- Model of `d.astimezone(tz)`: same instant, attached timezone replaced. -/
def astimezone (tz : Int) (d : PyDateTime) : PyDateTime :=
  { instant := d.instant, tzoff := tz }

/-- Python `<=` on aware datetimes compares absolute instants. -/
def dtLe (a b : PyDateTime) : Prop :=
  a.instant ≤ b.instant

instance (a b : PyDateTime) : Decidable (dtLe a b) := by
  unfold dtLe; infer_instance

/-- Model of `WIN_START_LOCAL, WIN_END_LOCAL = window_bounds()`: the run's admission
interval, a pair of local-timezone aware datetimes computed once per run. -/
structure WindowBounds where
  win_start : PyDateTime
  win_end : PyDateTime
deriving DecidableEq

/-- Function `in_window(dt_aware)` from fetch.py: `None` is never accepted; otherwise the
datetime is converted to the configured local timezone and tested against the
closed interval `WIN_START_LOCAL <= dt_local <= WIN_END_LOCAL`. -/
def in_window (tz : Int) (w : WindowBounds) (dt_aware : Option PyDateTime) : Bool :=
  match dt_aware with
  | none => false
  | some d =>
    let dt_local := astimezone tz d
    decide (dtLe w.win_start dt_local ∧ dtLe dt_local w.win_end)

/-- Python whitespace as stripped by `str.strip()` (the code points that occur
in this pipeline's data). -/
def isPySpace (c : Char) : Bool :=
  c == ' ' || c == '\t' || c == '\n' || c == '\r' || c == '\x0b' || c == '\x0c' ||
    c == '\u00A0' || c == '\u3000'

/-- Python `str.strip()` on the character list. -/
def pyStrip (l : List Char) : List Char :=
  ((l.dropWhile isPySpace).reverse.dropWhile isPySpace).reverse

/-- Function `clean_text(s)` from fetch.py:
`(s or "").strip().replace("　"," ").replace("\xa0"," ")`. -/
def clean_text (s : String) : String :=
  String.mk ((pyStrip s.data).map
    (fun c => if c == '\u3000' || c == '\u00A0' then ' ' else c))

/-- Python slicing `s[:n]`: the first `n` code points. -/
def pyTake (s : String) (n : Nat) : String :=
  String.mk (s.data.take n)

/-- Python `a or b` on strings: `a` unless it is falsy (empty). -/
def strOr (a b : String) : String :=
  if a = "" then b else a

/-- An item dict as built by a fetcher: keys title/link/summary/date. -/
structure RawItem where
  title : String
  link : String
  summary : String
  date : PyDateTime
deriving DecidableEq

/-- An output item after `main` attaches `source` and `tags`. -/
structure NormItem where
  title : String
  link : String
  summary : String
  date : PyDateTime
  source : String
  tags : List String
deriving DecidableEq

/-- A feedparser entry: the three structured-time fields checked for the date
(each an Option of the UTC wall-clock instant of the struct_time), plus the
text fields read by `fetch_rss`.  `title`/`link` model `e.get(key, "")`
(already defaulted); `summary`/`description` model `e.get(key)` (None when
absent). -/
structure FeedEntry where
  published_parsed : Option Int
  updated_parsed : Option Int
  created_parsed : Option Int
  title : String
  link : String
  summary : Option String
  description : Option String
deriving DecidableEq

/-- The date-resolution loop of `fetch_rss`: first of
`published_parsed`, `updated_parsed`, `created_parsed`, made aware with
`tzinfo=timezone.utc` (offset 0). -/
def resolve_feed_date (e : FeedEntry) : Option PyDateTime :=
  match e.published_parsed with
  | some t => some { instant := t, tzoff := 0 }
  | none =>
    match e.updated_parsed with
    | some t => some { instant := t, tzoff := 0 }
    | none =>
      match e.created_parsed with
      | some t => some { instant := t, tzoff := 0 }
      | none => none

/-- Result of `dateutil.parser.parse`: a timezone-naive wall-clock reading or
an aware datetime. -/
inductive ParsedDt where
  | naive (wall : Int)
  | aware (dt : PyDateTime)
deriving DecidableEq

/-- An lxml document restricted to what fetch.py queries: the six metadata
locations of `extract_published_from_html` (each xpath's result list, in
document order) and the `//a[@href]` anchors. -/
structure Anchor where
  href : String
  textContent : String
deriving DecidableEq

structure HtmlDoc where
  metaPublishedProp : List String
  metaPublishedName : List String
  metaDatePublished : List String
  metaPubdate : List String
  metaOgUpdated : List String
  timeDatetime : List String
  anchors : List Anchor
deriving DecidableEq

/-- The program's external world: every side-effecting call it makes, as pure
functions.  `Except.error` models a raised exception. -/
structure Env where
  /-- Model of `http_get(url).text` after `raise_for_status()`. -/
  http_get : String → Except String String
  /-- Combination of `http_get` and `feedparser.parse(...).entries` for a feed URL. -/
  feed_fetch : String → Except String (List FeedEntry)
  /-- Model of `lxml.html.fromstring`. -/
  parse_html : String → Except String HtmlDoc
  /-- Model of dateutil parsing; `none` models a raised parse exception. -/
  dateutil_parse : String → Option ParsedDt
  /-- Model of `requests.compat.urljoin base href`. -/
  urljoin : String → String → String
  /-- Model of `trafilatura.extract`; outer `none` = library absent, inner
  `none` = extraction raised or returned `None`. -/
  trafilatura_extract : Option (String → Option String)
  /-- Model of `hashlib.sha1(s).hexdigest()`. -/
  sha : String → String
  /-- Environment switch `SKIP_HTML`. -/
  skip_html : Bool
  /-- Environment switch `EXTRACT_BODY`. -/
  extract_body : Bool
  /-- Instant of `datetime.now(timezone.utc)` at the emission point. -/
  now : Int

/-- Function `now_utc()` from fetch.py: an aware UTC datetime. -/
def now_utc (env : Env) : PyDateTime :=
  { instant := env.now, tzoff := 0 }

/-- Function `parse_dt_any(s)` from fetch.py: `None`/empty gives `None`; otherwise
dateutil parses, a naive result gets `tzinfo=timezone.utc` attached to its
wall-clock reading, and the result is normalised with `astimezone(utc)`;
any parse exception yields `None`. -/
def parse_dt_any (env : Env) (s : Option String) : Option PyDateTime :=
  match s with
  | none => none
  | some str =>
    if str = "" then none
    else
      match env.dateutil_parse str with
      | none => none
      | some (ParsedDt.naive wall) => some { instant := wall, tzoff := 0 }
      | some (ParsedDt.aware d) => some (astimezone 0 d)

/-- The six xpath targets of `extract_published_from_html`, in the fixed
priority order the code lists them. -/
def meta_locations (doc : HtmlDoc) : List (List String) :=
  [doc.metaPublishedProp, doc.metaPublishedName, doc.metaDatePublished,
   doc.metaPubdate, doc.metaOgUpdated, doc.timeDatetime]

/-- The search loop of `extract_published_from_html`: for each location in the
fixed order, if the xpath matched (`vals` nonempty) try to parse `vals[0]`;
return on the first success, otherwise move to the next location. -/
def search_meta (env : Env) : List (List String) → Option PyDateTime
  | [] => none
  | vals :: rest =>
    match vals with
    | [] => search_meta env rest
    | v :: _ =>
      match parse_dt_any env (some v) with
      | some dt => some dt
      | none => search_meta env rest

/-- Function `extract_published_from_html(html_text)` from fetch.py; the surrounding
`try/except` makes a parse failure yield `None`. -/
def extract_published_from_html (env : Env) (html_text : String) : Option PyDateTime :=
  match env.parse_html html_text with
  | Except.error _ => none
  | Except.ok doc => search_meta env (meta_locations doc)

/-- The summary expression of `fetch_rss`:
`clean_text((e.get("summary") or e.get("description") or "")[:400])`. -/
def rss_summary (e : FeedEntry) : String :=
  clean_text (pyTake (strOr (e.summary.getD "") (e.description.getD "")) 400)

/-- The item dict appended by `fetch_rss` once `pub` passed the window. -/
def rss_item (e : FeedEntry) (pub : PyDateTime) : RawItem :=
  { title := clean_text e.title
    link := e.link
    summary := rss_summary e
    date := pub }

/-- Function `fetch_rss(url)` from fetch.py.  The body `try` (HTTP get, status check,
feedparser) is `env.feed_fetch`; an exception yields `[]`.  Per entry, the
date is resolved from the three `*_parsed` fields, entries failing
`in_window` are skipped (`in_window none = false`, so unknown dates are
skipped too), survivors are normalised and collected in order. -/
def fetch_rss (env : Env) (tz : Int) (w : WindowBounds) (url : String) : List RawItem :=
  match env.feed_fetch url with
  | Except.error _ => []
  | Except.ok entries =>
    entries.filterMap (fun e =>
      match resolve_feed_date e with
      | none => none
      | some pub =>
        if in_window tz w (some pub) then some (rss_item e pub) else none)

/-- The summary block of `fetch_html_window_items`:
`""` unless `EXTRACT_BODY` and trafilatura is importable; then
`trafilatura.extract` under its own `try/except pass`, `or ""`, and if
nonempty `clean_text(dl[:320])`. -/
def html_summary (env : Env) (art_text : String) : String :=
  if env.extract_body then
    match env.trafilatura_extract with
    | none => ""
    | some extractor =>
      match extractor art_text with
      | none => ""
      | some dl => if dl = "" then "" else clean_text (pyTake dl 320)
  else ""

/-- Boolean prefix test on character lists (helper for `imatch`). -/
def isPrefixB : List Char → List Char → Bool
  | [], _ => true
  | _ :: _, [] => false
  | a :: as, b :: bs => a == b && isPrefixB as bs

/-- Boolean contiguous-substring test on character lists (helper for
`imatch`). -/
def containsB (n : List Char) : List Char → Bool
  | [] => isPrefixB n []
  | c :: rest => isPrefixB n (c :: rest) || containsB n rest

/-- Lowercasing of a character list (the case folding of `re.I`). -/
def lowerL (l : List Char) : List Char := l.map Char.toLower

/-- Model of `re.search(p, t, re.I)` for a literal pattern `p`: case-insensitive
substring test. -/
def imatch (p text : String) : Bool :=
  containsB (lowerL p.data) (lowerL text.data)

/-- Test `rx and not rx.search(href)` from the anchor loop: should this
candidate URL be skipped because a link pattern is configured and it does not
match? -/
def rx_skip (env : Env) (list_url : String) (rx : Option String) (a : Anchor) : Bool :=
  match rx with
  | some p => !(imatch p (env.urljoin list_url a.href))
  | none => false

/-- The anchor loop of `fetch_html_window_items`.  State: remaining anchors,
`seen` URL set, accumulated `items`, and (ghost) the detail URLs requested so
far.  Mirrors the source exactly: empty href skipped; href resolved with
`urljoin`; pattern mismatch skipped; duplicate URL skipped; detail page
fetched (a visit), with any exception skipping the link; publish date
extracted and gated by `in_window`; the item appended with
`date := pub or now_utc()`; `break` once `len(items) >= limit`. -/
def html_loop (env : Env) (tz : Int) (w : WindowBounds) (list_url : String)
    (rx : Option String) (limit : Nat) :
    List Anchor → List String → List RawItem → List String →
      List RawItem × List String
  | [], _, items, visited => (items, visited)
  | a :: rest, seen, items, visited =>
    if a.href = "" then
      html_loop env tz w list_url rx limit rest seen items visited
    else
      let href := env.urljoin list_url a.href
      if rx_skip env list_url rx a then
        html_loop env tz w list_url rx limit rest seen items visited
      else if seen.contains href then
        html_loop env tz w list_url rx limit rest seen items visited
      else
        let seen2 := href :: seen
        let visited2 := visited ++ [href]
        match env.http_get href with
        | Except.error _ =>
          html_loop env tz w list_url rx limit rest seen2 items visited2
        | Except.ok art_text =>
          let pub := extract_published_from_html env art_text
          if in_window tz w pub then
            let title0 := clean_text a.textContent
            let item : RawItem :=
              { title := strOr title0 href
                link := href
                summary := html_summary env art_text
                date := pub.getD (now_utc env) }
            let items2 := items ++ [item]
            if limit ≤ items2.length then (items2, visited2)
            else html_loop env tz w list_url rx limit rest seen2 items2 visited2
          else
            html_loop env tz w list_url rx limit rest seen2 items visited2

/-- Function `fetch_html_window_items(list_url, link_pattern, limit)` from fetch.py.
First component: the returned item list.  Second component (ghost
instrumentation, see file header): the detail URLs passed to `http_get`. -/
def fetch_html_window_items (env : Env) (tz : Int) (w : WindowBounds)
    (list_url : String) (link_pattern : Option String) (limit : Nat) :
    List RawItem × List String :=
  if env.skip_html then ([], [])
  else
    match env.http_get list_url with
    | Except.error _ => ([], [])
    | Except.ok text =>
      match env.parse_html text with
      | Except.error _ => ([], [])
      | Except.ok doc =>
        html_loop env tz w list_url link_pattern limit doc.anchors [] [] []

/-- A `feeds.yml` entry as read by `main`. -/
structure Source where
  name : String
  url : String
  typ : String
  link_pattern : Option String
  tags : List String
deriving DecidableEq

/-- The per-source dispatch of `main` (`type == "rss"` vs HTML); the enclosing
`try/except` is dead in the model because both fetchers are total. -/
def fetch_source (env : Env) (tz : Int) (w : WindowBounds) (f : Source) :
    List RawItem :=
  if f.typ = "rss" then fetch_rss env tz w f.url
  else (fetch_html_window_items env tz w f.url f.link_pattern 20).1

/-- The keyword-filter stage of `main`'s candidate loop:
`text = title + " " + summary`; a non-empty include list must have a match;
a non-empty exclude list with a match drops the item. -/
def passes_filter (incl excl : List String) (it : RawItem) : Bool :=
  let text := it.title ++ " " ++ it.summary
  if !incl.isEmpty && !(incl.any (fun p => imatch p text)) then false
  else if !excl.isEmpty && excl.any (fun p => imatch p text) then false
  else true

/-- Expression `sha(it["link"] or it["title"])` from fetch.py: the dedup identity key. -/
def identity_key (env : Env) (link title : String) : String :=
  env.sha (strOr link title)

/-- The body of `main`'s candidate loop: keyword filter, then dedup against
the `seen` key set, then `it.update(source=name, tags=tags)` and append. -/
def accept_candidate (env : Env) (incl excl : List String) (name : String)
    (tags : List String) (st : List NormItem × List String) (it : RawItem) :
    List NormItem × List String :=
  if passes_filter incl excl it then
    let key := identity_key env it.link it.title
    if st.2.contains key then st
    else
      (st.1 ++ [{ title := it.title, link := it.link, summary := it.summary,
                  date := it.date, source := name, tags := tags }],
       key :: st.2)
  else st

/-- The source loop of `main`: fold every source's candidates through
`accept_candidate`, threading the item accumulator and the `seen` key set. -/
def collect (env : Env) (tz : Int) (w : WindowBounds)
    (incl excl : List String) (feeds : List Source) :
    List NormItem × List String :=
  feeds.foldl
    (fun st f =>
      (fetch_source env tz w f).foldl (accept_candidate env incl excl f.name f.tags) st)
    ([], [])

/-- Sort key of `items.sort(key=lambda x: x["date"], reverse=True)`:
dates are UTC `isoformat` strings, whose order is the instant order, so the
comparison `reverse=True` induces is "date of `b` at most date of `a`". -/
def date_desc (a b : NormItem) : Bool :=
  decide (b.date.instant ≤ a.date.instant)

/-- Function `main()` from fetch.py up to its output list `items` (Lean reserves the
name `main` for the IO entry point, hence `main_items`) (configuration
loading and file/HTML emission are out of scope): collect-filter-dedup over
the configured sources, then the stable descending date sort. -/
def main_items (env : Env) (tz : Int) (w : WindowBounds)
    (incl excl : List String) (feeds : List Source) : List NormItem :=
  ((collect env tz w incl excl feeds).1).mergeSort date_desc

/-- Spec-side notion of a case-insensitive pattern match: the lowercased
pattern occurs as a contiguous substring of the lowercased text. -/
def ci_matches (p text : String) : Prop :=
  lowerL p.data <:+: lowerL text.data

/-- Spec-side date resolver for HTML documents ("searches a fixed, ordered
list of metadata locations and returns the first one that parses"): the first
location, in the fixed priority order, whose first matched value parses. -/
def spec_first_parsing (env : Env) (doc : HtmlDoc) : Option PyDateTime :=
  (meta_locations doc).findSome?
    (fun vals => vals.head?.bind (fun v => parse_dt_any env (some v)))

/-- Promotion of a candidate to an output item by `it.update(...)` in `main`. -/
def normalize_item (name : String) (tags : List String) (it : RawItem) : NormItem :=
  { title := it.title, link := it.link, summary := it.summary,
    date := it.date, source := name, tags := tags }

/-- Identity key of an output item (same expression `main` hashes). -/
def key_of (env : Env) (it : NormItem) : String :=
  identity_key env it.link it.title

/-- Spec-side merged multi-source stream: every source's candidates, in
configured order, keyword-filtered and tagged with their source. -/
def merged_stream (env : Env) (tz : Int) (w : WindowBounds)
    (incl excl : List String) (feeds : List Source) : List NormItem :=
  feeds.flatMap (fun f =>
    ((fetch_source env tz w f).filter (passes_filter incl excl)).map
      (normalize_item f.name f.tags))

/-- Spec-side first-occurrence deduplication over a stream, threading the set
of already-seen keys; returns survivors and the final key set. -/
def dedup_scan (key : NormItem → String) :
    List NormItem → List String → List NormItem × List String
  | [], seen => ([], seen)
  | x :: xs, seen =>
    if seen.contains (key x) then dedup_scan key xs seen
    else
      let r := dedup_scan key xs (key x :: seen)
      (x :: r.1, r.2)

/- Concrete fixtures used by the witness and counterexample theorems: a tiny
world with one feed entry, one listing page `L` with two article links, the
first article dated far outside the window and the second inside it. -/

def test_entry : FeedEntry :=
  { published_parsed := some 3, updated_parsed := none, created_parsed := none,
    title := "Robot news", link := "l1", summary := some "sum",
    description := none }

def test_doc_list : HtmlDoc :=
  { metaPublishedProp := [], metaPublishedName := [], metaDatePublished := [],
    metaPubdate := [], metaOgUpdated := [], timeDatetime := [],
    anchors := [{ href := "h1", textContent := "Robot A" },
                { href := "h2", textContent := "Robot B" }] }

def test_doc_old : HtmlDoc :=
  { metaPublishedProp := ["old"], metaPublishedName := [],
    metaDatePublished := [], metaPubdate := [], metaOgUpdated := [],
    timeDatetime := [], anchors := [] }

def test_doc_new : HtmlDoc :=
  { metaPublishedProp := ["new"], metaPublishedName := [],
    metaDatePublished := [], metaPubdate := [], metaOgUpdated := [],
    timeDatetime := [], anchors := [] }

def test_w : WindowBounds :=
  { win_start := { instant := -10, tzoff := 9 },
    win_end := { instant := 10, tzoff := 9 } }

def test_env : Env :=
  { http_get := fun u =>
      if u = "L" then Except.ok "LIST"
      else if u = "h1" then Except.ok "P1"
      else if u = "h2" then Except.ok "P2"
      else Except.error "404"
    feed_fetch := fun _ => Except.ok [test_entry]
    parse_html := fun t =>
      if t = "LIST" then Except.ok test_doc_list
      else if t = "P1" then Except.ok test_doc_old
      else if t = "P2" then Except.ok test_doc_new
      else Except.error "parse failure"
    dateutil_parse := fun s =>
      if s = "old" then some (ParsedDt.aware { instant := -100, tzoff := 0 })
      else if s = "new" then some (ParsedDt.aware { instant := 0, tzoff := 3 })
      else none
    urljoin := fun _ href => href
    trafilatura_extract := none
    sha := fun s => s
    skip_html := false
    extract_body := false
    now := 7 }

def c8_entry : FeedEntry :=
  { published_parsed := some 3, updated_parsed := none, created_parsed := none,
    title := String.mk (List.replicate 601 'a'), link := "l2",
    summary := some (String.mk (List.replicate 500 'b')), description := none }

def c8_env : Env :=
  { test_env with feed_fetch := fun _ => Except.ok [c8_entry] }

def c6_env : Env :=
  { test_env with feed_fetch := fun _ => Except.error "connection reset"
                  http_get := fun _ => Except.error "connection reset" }

def c6_src1 : Source :=
  { name := "A", url := "u", typ := "rss", link_pattern := none, tags := [] }

def c6_src2 : Source :=
  { name := "B", url := "u2", typ := "rss", link_pattern := none, tags := [] }

/-- C1: for every window bounds pair and every timestamp, `in_window` is the
closed-interval test `start ≤ t ≤ end` on the timestamp converted to the
configured local timezone, and an absent timestamp is never accepted. -/
theorem C1_in_window_closed_local_interval (tz : Int) (w : WindowBounds) :
    in_window tz w none = false ∧
    ∀ d : PyDateTime,
      (in_window tz w (some d) = true ↔
        (dtLe w.win_start (astimezone tz d) ∧ dtLe (astimezone tz d) w.win_end)) := by
  refine ⟨rfl, fun d => ?_⟩
  simp [in_window]

theorem isPrefixB_iff : ∀ (a b : List Char), isPrefixB a b = true ↔ a <+: b
  | [], b => by simp [isPrefixB]
  | a :: as, [] => by simp [isPrefixB]
  | a :: as, b :: bs => by
    rw [isPrefixB]
    simp [List.cons_prefix_cons, isPrefixB_iff as bs, Bool.and_eq_true, beq_iff_eq]

theorem containsB_iff : ∀ (n h : List Char), containsB n h = true ↔ n <:+: h
  | n, [] => by simp [containsB, isPrefixB_iff]
  | n, c :: rest => by
    rw [containsB]
    simp [isPrefixB_iff, containsB_iff n rest, List.infix_cons_iff, Bool.or_eq_true]

theorem imatch_iff (p text : String) : imatch p text = true ↔ ci_matches p text := by
  unfold imatch ci_matches
  exact containsB_iff _ _

/-- C3: the filter stage evaluates `title + " " + summary` case-insensitively;
with a non-empty include list the candidate is kept only when some include
pattern matches (all pass when the list is empty), and any exclude match drops
the candidate even when an include pattern also matches. -/
theorem C3_keyword_filter_semantics (incl excl : List String) (it : RawItem) :
    passes_filter incl excl it = true ↔
      ((incl = [] ∨ ∃ p ∈ incl, ci_matches p (it.title ++ " " ++ it.summary)) ∧
       ¬ ∃ p ∈ excl, ci_matches p (it.title ++ " " ++ it.summary)) := by
  unfold passes_filter
  simp only []
  split_ifs with h1 h2 <;>
    simp_all [List.any_eq_true, imatch_iff, List.isEmpty_iff]
  refine ⟨?_, ?_⟩
  · by_cases hi : incl = []
    · exact Or.inl hi
    · exact Or.inr (h1 hi)
  · intro x hx
    rcases excl with _ | ⟨e, es⟩
    · simp at hx
    · exact h2 (by simp) x hx

theorem search_meta_eq (env : Env) : ∀ locs : List (List String),
    search_meta env locs =
      locs.findSome? (fun vals => vals.head?.bind (fun v => parse_dt_any env (some v)))
  | [] => by simp [search_meta]
  | vals :: rest => by
    cases vals with
    | nil => simp [search_meta, search_meta_eq env rest]
    | cons v vs =>
      cases hp : parse_dt_any env (some v) <;>
        simp [search_meta, hp, search_meta_eq env rest]

/-- C7: the HTML date resolver equals the spec-side search of the fixed,
ordered list of six metadata locations, returning the first candidate that
parses; a document parse failure (and absence or unparsability of every
candidate, via `findSome?`) yields `none`, and the function is total. -/
theorem C7_extract_published_priority_order (env : Env) (html_text : String) :
    extract_published_from_html env html_text =
      (match env.parse_html html_text with
       | Except.error _ => none
       | Except.ok doc => spec_first_parsing env doc) := by
  unfold extract_published_from_html spec_first_parsing
  cases env.parse_html html_text <;> simp [search_meta_eq]

theorem html_loop_items_spec (env : Env) (tz : Int) (w : WindowBounds)
    (list_url : String) (rx : Option String) (limit : Nat) :
    ∀ (anchors : List Anchor) (seen : List String) (items : List RawItem)
      (visited : List String) (it : RawItem),
      it ∈ (html_loop env tz w list_url rx limit anchors seen items visited).1 →
      it ∈ items ∨
        ∃ art p, env.http_get it.link = Except.ok art ∧
          extract_published_from_html env art = some p ∧
          in_window tz w (some p) = true ∧ it.date = p
  | [], _, _, _, _, hit => Or.inl hit
  | a :: rest, seen, items, visited, it, hit => by
    simp only [html_loop] at hit
    by_cases h1 : a.href = ""
    · rw [if_pos h1] at hit
      exact html_loop_items_spec env tz w list_url rx limit rest seen items visited it hit
    · rw [if_neg h1] at hit
      by_cases h2 : rx_skip env list_url rx a = true
      · rw [if_pos h2] at hit
        exact html_loop_items_spec env tz w list_url rx limit rest seen items visited it hit
      · rw [if_neg h2] at hit
        by_cases h3 : seen.contains (env.urljoin list_url a.href) = true
        · rw [if_pos h3] at hit
          exact html_loop_items_spec env tz w list_url rx limit rest seen items visited it hit
        · rw [if_neg h3] at hit
          rcases hg : env.http_get (env.urljoin list_url a.href) with e | art_text
          · rw [hg] at hit
            exact html_loop_items_spec env tz w list_url rx limit rest
              (env.urljoin list_url a.href :: seen) items
              (visited ++ [env.urljoin list_url a.href]) it hit
          · rw [hg] at hit
            dsimp only at hit
            by_cases h4 : in_window tz w (extract_published_from_html env art_text) = true
            · rw [if_pos h4] at hit
              rcases hp : extract_published_from_html env art_text with _ | p
              · rw [hp] at h4
                simp [in_window] at h4
              · rw [hp] at hit h4
                by_cases h5 : limit ≤ (items ++
                    [{ title := strOr (clean_text a.textContent) (env.urljoin list_url a.href),
                       link := env.urljoin list_url a.href,
                       summary := html_summary env art_text,
                       date := (some p).getD (now_utc env) : RawItem }]).length
                · rw [if_pos h5] at hit
                  rcases List.mem_append.mp hit with hin | hnew
                  · exact Or.inl hin
                  · refine Or.inr ⟨art_text, p, ?_, hp, h4, ?_⟩
                    · rw [List.mem_singleton.mp hnew]
                      exact hg
                    · rw [List.mem_singleton.mp hnew]
                      rfl
                · rw [if_neg h5] at hit
                  rcases html_loop_items_spec env tz w list_url rx limit rest
                      (env.urljoin list_url a.href :: seen) _
                      (visited ++ [env.urljoin list_url a.href]) it hit with hin | hok
                  · rcases List.mem_append.mp hin with hin2 | hnew
                    · exact Or.inl hin2
                    · refine Or.inr ⟨art_text, p, ?_, hp, h4, ?_⟩
                      · rw [List.mem_singleton.mp hnew]
                        exact hg
                      · rw [List.mem_singleton.mp hnew]
                        rfl
                  · exact Or.inr hok
            · rw [if_neg h4] at hit
              exact html_loop_items_spec env tz w list_url rx limit rest
                (env.urljoin list_url a.href :: seen) items
                (visited ++ [env.urljoin list_url a.href]) it hit

theorem fetch_rss_mem_spec (env : Env) (tz : Int) (w : WindowBounds) (url : String)
    (it : RawItem) (hit : it ∈ fetch_rss env tz w url) :
    ∃ entries e, env.feed_fetch url = Except.ok entries ∧ e ∈ entries ∧
      resolve_feed_date e = some it.date ∧
      in_window tz w (some it.date) = true ∧ it = rss_item e it.date := by
  unfold fetch_rss at hit
  rcases hf : env.feed_fetch url with err | entries <;> rw [hf] at hit
  · simp at hit
  · rw [List.mem_filterMap] at hit
    obtain ⟨e, he, heq⟩ := hit
    rcases hd : resolve_feed_date e with _ | pub <;> rw [hd] at heq <;>
        dsimp only at heq
    · simp at heq
    · by_cases hw : in_window tz w (some pub) = true
      · rw [if_pos hw] at heq
        obtain rfl : rss_item e pub = it := Option.some_inj.mp heq
        exact ⟨entries, e, rfl, he, hd, hw, rfl⟩
      · rw [if_neg hw] at heq
        simp at heq

theorem fetch_html_mem_spec (env : Env) (tz : Int) (w : WindowBounds)
    (list_url : String) (pat : Option String) (limit : Nat) (it : RawItem)
    (hit : it ∈ (fetch_html_window_items env tz w list_url pat limit).1) :
    ∃ art p, env.http_get it.link = Except.ok art ∧
      extract_published_from_html env art = some p ∧
      in_window tz w (some p) = true ∧ it.date = p := by
  unfold fetch_html_window_items at hit
  by_cases hs : env.skip_html = true
  · rw [if_pos hs] at hit
    simp at hit
  · rw [if_neg hs] at hit
    rcases hg : env.http_get list_url with e | text <;> rw [hg] at hit
    · simp at hit
    · dsimp only at hit
      rcases hp : env.parse_html text with e | doc <;> rw [hp] at hit
      · simp at hit
      · dsimp only at hit
        rcases html_loop_items_spec env tz w list_url pat limit doc.anchors [] [] []
            it hit with hin | hok
        · simp at hin
        · exact hok

/-- C2: every item in a fetcher's returned list (feed path or HTML listing
path) carries a publish date that was actually resolved and lies inside the
run's admission window; unknown-date and out-of-window candidates are dropped
at fetch time. -/
theorem C2_fetchers_enforce_admission (env : Env) (tz : Int) (w : WindowBounds) :
    (∀ url it, it ∈ fetch_rss env tz w url →
      in_window tz w (some it.date) = true ∧
      ∃ entries e, env.feed_fetch url = Except.ok entries ∧ e ∈ entries ∧
        resolve_feed_date e = some it.date) ∧
    (∀ list_url pat limit it,
      it ∈ (fetch_html_window_items env tz w list_url pat limit).1 →
      in_window tz w (some it.date) = true ∧
      ∃ art, env.http_get it.link = Except.ok art ∧
        extract_published_from_html env art = some it.date) := by
  constructor
  · intro url it hit
    obtain ⟨entries, e, hf, he, hd, hw, _⟩ := fetch_rss_mem_spec env tz w url it hit
    exact ⟨hw, entries, e, hf, he, hd⟩
  · intro list_url pat limit it hit
    obtain ⟨art, p, hg, hx, hw, hd⟩ :=
      fetch_html_mem_spec env tz w list_url pat limit it hit
    rw [hd]
    exact ⟨hw, art, hg, hx⟩

/-- Witness for C2 at the concrete fixture feed item. -/
theorem C2_witness :
    in_window 9 test_w (some { instant := 3, tzoff := 0 }) = true ∧
    ∃ entries e, test_env.feed_fetch "u" = Except.ok entries ∧ e ∈ entries ∧
      resolve_feed_date e = some { instant := 3, tzoff := 0 } :=
  (C2_fetchers_enforce_admission test_env 9 test_w).1 "u"
    { title := "Robot news", link := "l1", summary := "sum",
      date := { instant := 3, tzoff := 0 } } (by decide)

theorem env_set_now_http_get (env : Env) (n : Int) :
    ({ env with now := n } : Env).http_get = env.http_get := rfl

theorem env_set_now_urljoin (env : Env) (n : Int) :
    ({ env with now := n } : Env).urljoin = env.urljoin := rfl

theorem env_set_now_parse_html (env : Env) (n : Int) :
    ({ env with now := n } : Env).parse_html = env.parse_html := rfl

theorem env_set_now_skip_html (env : Env) (n : Int) :
    ({ env with now := n } : Env).skip_html = env.skip_html := rfl

theorem rx_skip_set_now (env : Env) (n : Int) (list_url : String)
    (rx : Option String) (a : Anchor) :
    rx_skip { env with now := n } list_url rx a = rx_skip env list_url rx a := rfl

theorem html_summary_set_now (env : Env) (n : Int) (art : String) :
    html_summary { env with now := n } art = html_summary env art := rfl

theorem extract_published_set_now (env : Env) (n : Int) (html_text : String) :
    extract_published_from_html { env with now := n } html_text =
      extract_published_from_html env html_text := rfl

theorem now_utc_set_now (env : Env) (n : Int) :
    now_utc { env with now := n } = { instant := n, tzoff := 0 } := rfl

theorem html_loop_now_invariant (env : Env) (n n' : Int) (tz : Int)
    (w : WindowBounds) (list_url : String) (rx : Option String) (limit : Nat) :
    ∀ (anchors : List Anchor) (seen : List String) (items : List RawItem)
      (visited : List String),
      html_loop { env with now := n } tz w list_url rx limit anchors seen items visited =
      html_loop { env with now := n' } tz w list_url rx limit anchors seen items visited
  | [], _, _, _ => rfl
  | a :: rest, seen, items, visited => by
    simp only [html_loop, env_set_now_http_get, env_set_now_urljoin, rx_skip_set_now,
      html_summary_set_now, extract_published_set_now, now_utc_set_now]
    by_cases h1 : a.href = ""
    · rw [if_pos h1, if_pos h1]
      exact html_loop_now_invariant env n n' tz w list_url rx limit rest seen items visited
    · rw [if_neg h1, if_neg h1]
      by_cases h2 : rx_skip env list_url rx a = true
      · rw [if_pos h2, if_pos h2]
        exact html_loop_now_invariant env n n' tz w list_url rx limit rest seen items visited
      · rw [if_neg h2, if_neg h2]
        by_cases h3 : seen.contains (env.urljoin list_url a.href) = true
        · rw [if_pos h3, if_pos h3]
          exact html_loop_now_invariant env n n' tz w list_url rx limit rest seen items visited
        · rw [if_neg h3, if_neg h3]
          rcases hg : env.http_get (env.urljoin list_url a.href) with e | art_text <;>
            dsimp only
          · exact html_loop_now_invariant env n n' tz w list_url rx limit rest
              (env.urljoin list_url a.href :: seen) items
              (visited ++ [env.urljoin list_url a.href])
          · rcases hpub : extract_published_from_html env art_text with _ | p
            · have hnw : ¬ in_window tz w none = true := by simp [in_window]
              rw [if_neg hnw, if_neg hnw]
              exact html_loop_now_invariant env n n' tz w list_url rx limit rest
                (env.urljoin list_url a.href :: seen) items
                (visited ++ [env.urljoin list_url a.href])
            · simp only [Option.getD_some]
              by_cases h4 : in_window tz w (some p) = true
              · rw [if_pos h4, if_pos h4]
                by_cases h5 : limit ≤ (items ++
                    [{ title := strOr (clean_text a.textContent) (env.urljoin list_url a.href),
                       link := env.urljoin list_url a.href,
                       summary := html_summary env art_text,
                       date := p : RawItem }]).length
                · rw [if_pos h5, if_pos h5]
                · rw [if_neg h5, if_neg h5]
                  exact html_loop_now_invariant env n n' tz w list_url rx limit rest
                    (env.urljoin list_url a.href :: seen) _
                    (visited ++ [env.urljoin list_url a.href])
              · rw [if_neg h4, if_neg h4]
                exact html_loop_now_invariant env n n' tz w list_url rx limit rest
                  (env.urljoin list_url a.href :: seen) items
                  (visited ++ [env.urljoin list_url a.href])

/-- C10: every item the HTML listing fetcher emits has its stored date equal
to the publish instant resolved from the article's HTML (which is never
unknown at the emission point), and the whole fetch result is independent of
the current-time value, so the `pub or now_utc()` fallback never supplies the
date of an emitted item. -/
theorem C10_html_dates_resolved_not_defaulted (env : Env) (tz : Int)
    (w : WindowBounds) (list_url : String) (pat : Option String) (limit : Nat) :
    (∀ it, it ∈ (fetch_html_window_items env tz w list_url pat limit).1 →
      ∃ art p, env.http_get it.link = Except.ok art ∧
        extract_published_from_html env art = some p ∧
        in_window tz w (some p) = true ∧ it.date = p) ∧
    (∀ n n', fetch_html_window_items { env with now := n } tz w list_url pat limit =
             fetch_html_window_items { env with now := n' } tz w list_url pat limit) := by
  constructor
  · intro it hit
    exact fetch_html_mem_spec env tz w list_url pat limit it hit
  · intro n n'
    unfold fetch_html_window_items
    simp only [env_set_now_http_get, env_set_now_parse_html, env_set_now_skip_html]
    by_cases hs : env.skip_html = true
    · rw [if_pos hs, if_pos hs]
    · rw [if_neg hs, if_neg hs]
      rcases hg : env.http_get list_url with e | text <;> dsimp only
      rcases hp : env.parse_html text with e | doc <;> dsimp only
      exact html_loop_now_invariant env n n' tz w list_url pat limit
        doc.anchors [] [] []

/-- Witness for C10 at the concrete fixture listing item. -/
theorem C10_witness :
    ∃ art p, test_env.http_get "h2" = Except.ok art ∧
      extract_published_from_html test_env art = some p ∧
      in_window 9 test_w (some p) = true ∧
      ({ title := "Robot B", link := "h2", summary := "",
         date := { instant := 0, tzoff := 0 } } : RawItem).date = p :=
  (C10_html_dates_resolved_not_defaulted test_env 9 test_w "L" none 1).1
    { title := "Robot B", link := "h2", summary := "",
      date := { instant := 0, tzoff := 0 } } (by decide)

theorem html_loop_length_le (env : Env) (tz : Int) (w : WindowBounds)
    (list_url : String) (rx : Option String) (limit : Nat) :
    ∀ (anchors : List Anchor) (seen : List String) (items : List RawItem)
      (visited : List String),
      items.length < limit →
      ((html_loop env tz w list_url rx limit anchors seen items visited).1).length ≤ limit
  | [], _, _, _, h => Nat.le_of_lt h
  | a :: rest, seen, items, visited, h => by
    simp only [html_loop]
    by_cases h1 : a.href = ""
    · rw [if_pos h1]
      exact html_loop_length_le env tz w list_url rx limit rest seen items visited h
    · rw [if_neg h1]
      by_cases h2 : rx_skip env list_url rx a = true
      · rw [if_pos h2]
        exact html_loop_length_le env tz w list_url rx limit rest seen items visited h
      · rw [if_neg h2]
        by_cases h3 : seen.contains (env.urljoin list_url a.href) = true
        · rw [if_pos h3]
          exact html_loop_length_le env tz w list_url rx limit rest seen items visited h
        · rw [if_neg h3]
          rcases hg : env.http_get (env.urljoin list_url a.href) with e | art_text <;>
            dsimp only
          · exact html_loop_length_le env tz w list_url rx limit rest
              (env.urljoin list_url a.href :: seen) items
              (visited ++ [env.urljoin list_url a.href]) h
          · by_cases h4 : in_window tz w (extract_published_from_html env art_text) = true
            · rw [if_pos h4]
              by_cases h5 : limit ≤ (items ++
                  [{ title := strOr (clean_text a.textContent) (env.urljoin list_url a.href),
                     link := env.urljoin list_url a.href,
                     summary := html_summary env art_text,
                     date := (extract_published_from_html env art_text).getD (now_utc env)
                     : RawItem }]).length
              · rw [if_pos h5]
                have : (items ++
                    [{ title := strOr (clean_text a.textContent) (env.urljoin list_url a.href),
                       link := env.urljoin list_url a.href,
                       summary := html_summary env art_text,
                       date := (extract_published_from_html env art_text).getD (now_utc env)
                       : RawItem }]).length = items.length + 1 := by
                  simp
                rw [this]
                exact h
              · rw [if_neg h5]
                exact html_loop_length_le env tz w list_url rx limit rest
                  (env.urljoin list_url a.href :: seen) _
                  (visited ++ [env.urljoin list_url a.href]) (Nat.lt_of_not_le h5)
            · rw [if_neg h4]
              exact html_loop_length_le env tz w list_url rx limit rest
                (env.urljoin list_url a.href :: seen) items
                (visited ++ [env.urljoin list_url a.href]) h

/-- C9 (amended): `limit` caps the number of items the HTML listing fetcher
returns (for any positive limit), and the loop stops fetching further links
once the limit-th item is collected; the number of detail-page fetches,
however, is not capped by `limit` (see the counterexample). -/
theorem C9_amended_limit_caps_items (env : Env) (tz : Int) (w : WindowBounds)
    (list_url : String) (pat : Option String) (limit : Nat) (h : 1 ≤ limit) :
    ((fetch_html_window_items env tz w list_url pat limit).1).length ≤ limit := by
  unfold fetch_html_window_items
  by_cases hs : env.skip_html = true
  · rw [if_pos hs]
    exact Nat.le_of_lt h
  · rw [if_neg hs]
    rcases hg : env.http_get list_url with e | text <;> dsimp only
    · exact Nat.le_of_lt h
    · rcases hp : env.parse_html text with e | doc <;> dsimp only
      · exact Nat.le_of_lt h
      · exact html_loop_length_le env tz w list_url pat limit doc.anchors [] [] [] h

/-- C9 counterexample: with `limit = 1` the fixture listing still triggers two
detail-page fetches (the first candidate's article is outside the window), so
the number of visited candidate links exceeds `limit`: the bound caps items
returned, not detail-page visits. -/
theorem C9_counterexample_visits_not_capped :
    ¬ (((fetch_html_window_items test_env 9 test_w "L" none 1).2).length ≤ 1) := by
  decide

/-- Witness for the amended C9 at the concrete fixture. -/
theorem C9_witness :
    ((fetch_html_window_items test_env 9 test_w "L" none 1).1).length ≤ 1 :=
  C9_amended_limit_caps_items test_env 9 test_w "L" none 1 (by decide)

theorem pyStrip_length_le (l : List Char) : (pyStrip l).length ≤ l.length := by
  unfold pyStrip
  have h1 := (List.dropWhile_sublist (l := l) isPySpace).length_le
  have h2 := (List.dropWhile_sublist
    (l := (l.dropWhile isPySpace).reverse) isPySpace).length_le
  simp only [List.length_reverse] at *
  omega

theorem clean_text_length_le (s : String) : (clean_text s).length ≤ s.length := by
  show ((pyStrip s.data).map
    (fun c => if c == '　' || c == ' ' then ' ' else c)).length ≤ s.data.length
  rw [List.length_map]
  exact pyStrip_length_le s.data

theorem pyTake_length_le (s : String) (n : Nat) : (pyTake s n).length ≤ n := by
  show (s.data.take n).length ≤ n
  rw [List.length_take]
  exact Nat.min_le_left n _

theorem clean_text_no_special_space (s : String) :
    ∀ c ∈ (clean_text s).data, c ≠ '　' ∧ c ≠ ' ' := by
  intro c hc
  have h : (clean_text s).data =
      (pyStrip s.data).map
        (fun c => if c == '　' || c == ' ' then ' ' else c) := rfl
  rw [h] at hc
  rcases List.mem_map.mp hc with ⟨c0, _, rfl⟩
  by_cases hb : (c0 == '　' || c0 == ' ') = true
  · rw [if_pos hb]
    exact ⟨by decide, by decide⟩
  · rw [if_neg hb]
    simp only [Bool.or_eq_true, beq_iff_eq, not_or] at hb
    exact ⟨hb.1, hb.2⟩

/-- C8 (amended): every feed item's summary is truncated to at most 400
characters, and both title and summary are whitespace-normalized so that no
full-width (U+3000) or no-break (U+00A0) space survives; the title, however,
is not length-truncated (see the counterexample). -/
theorem C8_amended_rss_normalization (env : Env) (tz : Int) (w : WindowBounds)
    (url : String) :
    ∀ it ∈ fetch_rss env tz w url,
      it.summary.length ≤ 400 ∧
      (∀ c ∈ it.title.data, c ≠ '　' ∧ c ≠ ' ') ∧
      (∀ c ∈ it.summary.data, c ≠ '　' ∧ c ≠ ' ') := by
  intro it hit
  obtain ⟨entries, e, _, _, _, _, hi⟩ := fetch_rss_mem_spec env tz w url it hit
  rw [hi]
  refine ⟨?_, ?_, ?_⟩
  · exact Nat.le_trans (clean_text_length_le _) (pyTake_length_le _ 400)
  · exact clean_text_no_special_space e.title
  · exact clean_text_no_special_space _

set_option maxRecDepth 8192 in
/-- C8 counterexample: a 601-character feed entry title is emitted with
length 601 — unchanged and in particular above the claimed 400–600 range —
while the 500-character summary of the same entry is truncated to 400; the
title is not truncated to a bounded length. -/
theorem C8_counterexample_title_not_truncated :
    ((fetch_rss c8_env 9 test_w "u").map
      (fun it => (it.title.length, it.summary.length))) = [(601, 400)] := by
  decide

/-- The item `fetch_rss` emits for `test_entry` in `test_env`. -/
def test_item : RawItem :=
  { title := "Robot news", link := "l1", summary := "sum",
    date := { instant := 3, tzoff := 0 } }

/-- Witness for the amended C8 at the concrete fixture item. -/
theorem C8_witness :
    test_item.summary.length ≤ 400 ∧
    (∀ c ∈ test_item.title.data, c ≠ '　' ∧ c ≠ ' ') ∧
    (∀ c ∈ test_item.summary.data, c ≠ '　' ∧ c ≠ ' ') :=
  C8_amended_rss_normalization test_env 9 test_w "u" test_item (by decide)

theorem key_of_normalize (env : Env) (name : String) (tags : List String)
    (it : RawItem) :
    key_of env (normalize_item name tags it) = identity_key env it.link it.title := rfl

theorem accept_candidate_foldl_eq (env : Env) (incl excl : List String) (name : String)
    (tags : List String) :
    ∀ (cands : List RawItem) (items : List NormItem) (seen : List String),
      cands.foldl (accept_candidate env incl excl name tags) (items, seen) =
        (items ++ (dedup_scan (key_of env)
            ((cands.filter (passes_filter incl excl)).map (normalize_item name tags))
            seen).1,
         (dedup_scan (key_of env)
            ((cands.filter (passes_filter incl excl)).map (normalize_item name tags))
            seen).2)
  | [], items, seen => by simp [dedup_scan]
  | c :: cs, items, seen => by
    rw [List.foldl_cons]
    by_cases hp : passes_filter incl excl c = true
    · rw [List.filter_cons_of_pos hp, List.map_cons]
      by_cases hc : seen.contains (identity_key env c.link c.title) = true
      · have ha : accept_candidate env incl excl name tags (items, seen) c = (items, seen) := by
          unfold accept_candidate
          rw [if_pos hp]
          dsimp only
          rw [if_pos hc]
        rw [ha, dedup_scan, key_of_normalize, if_pos hc]
        exact accept_candidate_foldl_eq env incl excl name tags cs items seen
      · have ha : accept_candidate env incl excl name tags (items, seen) c =
            (items ++ [normalize_item name tags c],
             identity_key env c.link c.title :: seen) := by
          unfold accept_candidate
          rw [if_pos hp]
          dsimp only
          rw [if_neg hc]
          rfl
        rw [ha, dedup_scan, key_of_normalize, if_neg hc]
        rw [accept_candidate_foldl_eq env incl excl name tags cs
          (items ++ [normalize_item name tags c])
          (identity_key env c.link c.title :: seen)]
        simp [List.append_assoc]
    · rw [List.filter_cons_of_neg hp]
      have ha : accept_candidate env incl excl name tags (items, seen) c = (items, seen) := by
        unfold accept_candidate
        rw [if_neg hp]
      rw [ha]
      exact accept_candidate_foldl_eq env incl excl name tags cs items seen

theorem dedup_scan_append (key : NormItem → String) :
    ∀ (l₁ l₂ : List NormItem) (seen : List String),
      dedup_scan key (l₁ ++ l₂) seen =
        ((dedup_scan key l₁ seen).1 ++
          (dedup_scan key l₂ (dedup_scan key l₁ seen).2).1,
         (dedup_scan key l₂ (dedup_scan key l₁ seen).2).2)
  | [], l₂, seen => by simp [dedup_scan]
  | x :: xs, l₂, seen => by
    by_cases hc : key x ∈ seen <;>
      simp [dedup_scan, hc, dedup_scan_append key xs l₂]

theorem collect_eq_dedup (env : Env) (tz : Int) (w : WindowBounds)
    (incl excl : List String) :
    ∀ (feeds : List Source) (items : List NormItem) (seen : List String),
      feeds.foldl
        (fun st f => (fetch_source env tz w f).foldl
          (accept_candidate env incl excl f.name f.tags) st) (items, seen) =
      (items ++ (dedup_scan (key_of env)
          (merged_stream env tz w incl excl feeds) seen).1,
       (dedup_scan (key_of env)
          (merged_stream env tz w incl excl feeds) seen).2)
  | [], items, seen => by simp [merged_stream, dedup_scan]
  | f :: fs, items, seen => by
    rw [List.foldl_cons]
    rw [accept_candidate_foldl_eq env incl excl f.name f.tags (fetch_source env tz w f) items seen]
    rw [collect_eq_dedup env tz w incl excl fs]
    simp only [merged_stream, List.flatMap_cons, dedup_scan_append, List.append_assoc]

theorem collect_spec (env : Env) (tz : Int) (w : WindowBounds)
    (incl excl : List String) (feeds : List Source) :
    collect env tz w incl excl feeds =
      ((dedup_scan (key_of env) (merged_stream env tz w incl excl feeds) []).1,
       (dedup_scan (key_of env) (merged_stream env tz w incl excl feeds) []).2) := by
  unfold collect
  rw [collect_eq_dedup env tz w incl excl feeds [] []]
  simp

theorem dedup_scan_not_seen (key : NormItem → String) :
    ∀ (l : List NormItem) (seen : List String) (x : NormItem),
      x ∈ (dedup_scan key l seen).1 → key x ∉ seen
  | [], seen, x, hx => by simp [dedup_scan] at hx
  | y :: ys, seen, x, hx => by
    by_cases hc : seen.contains (key y) = true
    · rw [dedup_scan, if_pos hc] at hx
      exact dedup_scan_not_seen key ys seen x hx
    · rw [dedup_scan, if_neg hc] at hx
      rcases List.mem_cons.mp hx with rfl | hx2
      · intro hmem
        exact hc (List.elem_iff.mpr hmem)
      · have h2 := dedup_scan_not_seen key ys (key y :: seen) x hx2
        intro hmem
        exact h2 (List.mem_cons_of_mem _ hmem)

theorem dedup_scan_keys_nodup (key : NormItem → String) :
    ∀ (l : List NormItem) (seen : List String),
      ((dedup_scan key l seen).1.map key).Nodup
  | [], seen => by simp [dedup_scan]
  | y :: ys, seen => by
    by_cases hc : seen.contains (key y) = true
    · rw [dedup_scan, if_pos hc]
      exact dedup_scan_keys_nodup key ys seen
    · rw [dedup_scan, if_neg hc]
      refine List.nodup_cons.mpr ⟨?_, dedup_scan_keys_nodup key ys (key y :: seen)⟩
      intro hmem
      rcases List.mem_map.mp hmem with ⟨z, hz, hkz⟩
      have h2 := dedup_scan_not_seen key ys (key y :: seen) z hz
      exact h2 (by rw [hkz]; exact List.mem_cons_self _ _)

theorem dedup_scan_first (key : NormItem → String) :
    ∀ (l : List NormItem) (seen : List String) (x : NormItem),
      x ∈ (dedup_scan key l seen).1 →
      ∃ pre suf, l = pre ++ x :: suf ∧ ∀ y ∈ pre, key y ≠ key x
  | [], seen, x, hx => by simp [dedup_scan] at hx
  | y :: ys, seen, x, hx => by
    by_cases hc : seen.contains (key y) = true
    · rw [dedup_scan, if_pos hc] at hx
      obtain ⟨pre, suf, heq, hpre⟩ := dedup_scan_first key ys seen x hx
      have hnot := dedup_scan_not_seen key ys seen x hx
      refine ⟨y :: pre, suf, by rw [heq, List.cons_append], ?_⟩
      intro z hz
      rcases List.mem_cons.mp hz with rfl | hz2
      · intro hkey
        exact hnot (hkey ▸ List.elem_iff.mp hc)
      · exact hpre z hz2
    · rw [dedup_scan, if_neg hc] at hx
      rcases List.mem_cons.mp hx with rfl | hx2
      · exact ⟨[], ys, rfl, by simp⟩
      · obtain ⟨pre, suf, heq, hpre⟩ := dedup_scan_first key ys (key y :: seen) x hx2
        have hnot := dedup_scan_not_seen key ys (key y :: seen) x hx2
        refine ⟨y :: pre, suf, by rw [heq, List.cons_append], ?_⟩
        intro z hz
        rcases List.mem_cons.mp hz with rfl | hz2
        · intro hkey
          exact hnot (hkey ▸ List.mem_cons_self _ _)
        · exact hpre z hz2

/-- C4: the dedup identity key is the stable hash of `link` when non-empty,
else of `title`; across the merged multi-source stream the first occurrence of
a key is kept and later candidates with the same key are discarded, so every
key appears exactly once in the final output and each surviving item is the
first element of the merged stream bearing its key (hence carries the source
name attached at that first occurrence). -/
theorem C4_dedup_first_occurrence_wins (env : Env) (tz : Int) (w : WindowBounds)
    (incl excl : List String) (feeds : List Source) :
    ((main_items env tz w incl excl feeds).map (key_of env)).Nodup ∧
    (∀ it : NormItem,
      key_of env it = env.sha (if it.link = "" then it.title else it.link)) ∧
    ∀ it ∈ main_items env tz w incl excl feeds,
      ∃ pre suf, merged_stream env tz w incl excl feeds = pre ++ it :: suf ∧
        ∀ y ∈ pre, key_of env y ≠ key_of env it := by
  have hcol := collect_spec env tz w incl excl feeds
  refine ⟨?_, fun it => rfl, ?_⟩
  · have hperm : (main_items env tz w incl excl feeds).Perm
        ((collect env tz w incl excl feeds).1) :=
      List.mergeSort_perm _ _
    refine ((hperm.map (key_of env)).nodup_iff).mpr ?_
    rw [hcol]
    exact dedup_scan_keys_nodup (key_of env) _ []
  · intro it hit
    have hmem : it ∈ (collect env tz w incl excl feeds).1 :=
      List.mem_mergeSort.mp hit
    rw [hcol] at hmem
    exact dedup_scan_first (key_of env) _ [] it hmem

def c4_srcA : Source :=
  { name := "A", url := "u", typ := "rss", link_pattern := none, tags := [] }

def c4_srcB : Source :=
  { name := "B", url := "u", typ := "rss", link_pattern := none, tags := [] }

def c4_item : NormItem :=
  { title := "Robot news", link := "l1", summary := "sum",
    date := { instant := 3, tzoff := 0 }, source := "A", tags := [] }

/-- Witness for C4: with two sources in order A, B serving the same feed item,
the surviving item is the first occurrence (from source A) in the merged
stream. -/
theorem C4_witness :
    ∃ pre suf, merged_stream test_env 9 test_w [] [] [c4_srcA, c4_srcB] =
        pre ++ c4_item :: suf ∧
      ∀ y ∈ pre, key_of test_env y ≠ key_of test_env c4_item :=
  (C4_dedup_first_occurrence_wins test_env 9 test_w [] [] [c4_srcA, c4_srcB]).2.2
    c4_item (List.mem_mergeSort.mpr (by decide))

/-- C5: the assembled output is sorted by publish date descending, is a
permutation of the collected list, and for every date value the equal-date
items appear exactly as in the original encounter order (the sort is stable),
so identical input yields identical output. -/
theorem C5_sorted_desc_stable (env : Env) (tz : Int) (w : WindowBounds)
    (incl excl : List String) (feeds : List Source) :
    (main_items env tz w incl excl feeds).Pairwise
      (fun a b => b.date.instant ≤ a.date.instant) ∧
    (main_items env tz w incl excl feeds).Perm
      ((collect env tz w incl excl feeds).1) ∧
    ∀ d : Int,
      (main_items env tz w incl excl feeds).filter
        (fun it => it.date.instant == d) =
      ((collect env tz w incl excl feeds).1).filter
        (fun it => it.date.instant == d) := by
  have htrans : ∀ a b c : NormItem,
      date_desc a b = true → date_desc b c = true → date_desc a c = true := by
    intro a b c hab hbc
    simp only [date_desc, decide_eq_true_eq] at *
    omega
  have htotal : ∀ a b : NormItem, (date_desc a b || date_desc b a) = true := by
    intro a b
    simp only [date_desc, Bool.or_eq_true, decide_eq_true_eq]
    omega
  refine ⟨?_, List.mergeSort_perm _ _, ?_⟩
  · have hs := List.sorted_mergeSort htrans htotal
      ((collect env tz w incl excl feeds).1)
    exact hs.imp (fun h => by
      simp only [date_desc, decide_eq_true_eq] at h
      exact h)
  · intro d
    have hperm : ((main_items env tz w incl excl feeds).filter
        (fun it => it.date.instant == d)).Perm
        (((collect env tz w incl excl feeds).1).filter
          (fun it => it.date.instant == d)) :=
      (List.mergeSort_perm _ date_desc).filter _
    have hpw : (((collect env tz w incl excl feeds).1).filter
        (fun it => it.date.instant == d)).Pairwise
        (fun a b => date_desc a b = true) := by
      apply List.pairwise_of_forall_mem_list
      intro a ha b hb
      have ha' := (List.mem_filter.mp ha).2
      have hb' := (List.mem_filter.mp hb).2
      simp only [beq_iff_eq] at ha' hb'
      simp only [date_desc, decide_eq_true_eq]
      omega
    have hsub : (((collect env tz w incl excl feeds).1).filter
        (fun it => it.date.instant == d)).Sublist
        (main_items env tz w incl excl feeds) :=
      List.sublist_mergeSort htrans htotal hpw (List.filter_sublist _)
    have hsub2 : (((collect env tz w incl excl feeds).1).filter
        (fun it => it.date.instant == d)).Sublist
        ((main_items env tz w incl excl feeds).filter
          (fun it => it.date.instant == d)) := by
      have h3 := hsub.filter (fun it => it.date.instant == d)
      rwa [List.filter_eq_self.mpr (fun a ha => (List.mem_filter.mp ha).2)] at h3
    exact (hsub2.eq_of_length (hperm.length_eq).symm).symm

/-- C6: a network or parse exception while fetching one source is caught at
the fetcher boundary, that source contributes an empty candidate list, and a
source with no candidates leaves the run's output exactly as if the source
were absent — the remaining sources' results are still emitted. -/
theorem C6_source_failures_isolated (env : Env) (tz : Int) (w : WindowBounds)
    (incl excl : List String) :
    (∀ url e, env.feed_fetch url = Except.error e →
      fetch_rss env tz w url = []) ∧
    (∀ list_url pat limit e, env.http_get list_url = Except.error e →
      (fetch_html_window_items env tz w list_url pat limit).1 = []) ∧
    ∀ (pre : List Source) (f : Source) (suf : List Source),
      fetch_source env tz w f = [] →
      main_items env tz w incl excl (pre ++ f :: suf) =
        main_items env tz w incl excl (pre ++ suf) := by
  refine ⟨?_, ?_, ?_⟩
  · intro url e h
    unfold fetch_rss
    rw [h]
  · intro list_url pat limit e h
    unfold fetch_html_window_items
    by_cases hs : env.skip_html = true
    · rw [if_pos hs]
    · rw [if_neg hs, h]
  · intro pre f suf h
    have hc : collect env tz w incl excl (pre ++ f :: suf) =
        collect env tz w incl excl (pre ++ suf) := by
      unfold collect
      rw [List.foldl_append, List.foldl_append, List.foldl_cons, h, List.foldl_nil]
    unfold main_items
    rw [hc]

/-- Witness for C6: a fully failing environment isolates both fetcher kinds
and removing the failing source does not change the output. -/
theorem C6_witness :
    fetch_rss c6_env 9 test_w "u" = [] ∧
    (fetch_html_window_items c6_env 9 test_w "L" none 20).1 = [] ∧
    main_items c6_env 9 test_w [] [] ([] ++ c6_src1 :: [c6_src2]) =
      main_items c6_env 9 test_w [] [] ([] ++ [c6_src2]) :=
  ⟨(C6_source_failures_isolated c6_env 9 test_w [] []).1 "u"
      "connection reset" rfl,
   (C6_source_failures_isolated c6_env 9 test_w [] []).2.1 "L" none 20
      "connection reset" rfl,
   (C6_source_failures_isolated c6_env 9 test_w [] []).2.2 [] c6_src1
      [c6_src2] rfl⟩
